import Mathlib

/-!
# cpp-ethereum: the Transaction value object and the miner CLI option handling

A shallow embedding of `libethereum/Transaction.h` and `aleth/MinerAux.h`.

* 256-bit and 160-bit quantities (`u256`, `h256`, `Address`) are natural numbers; the zero
  address is the number `0`, which is what `operator bool` of a fixed hash tests.
* Byte strings are lists of naturals.
* Functions whose bodies live outside the two headers (the codec, the digest, the signature
  provider, `abridged`) are fields of `Externals`.
-/

set_option autoImplicit false

deriving instance DecidableEq for Except

namespace dev
namespace eth

/-! ## Data model (Transaction.h) -/

abbrev byte := Nat
abbrev bytes := List Nat
abbrev u256 := Nat
abbrev h256 := Nat
abbrev Address := Nat
abbrev Secret := Nat
abbrev Public := Nat

/-- The enum `Transaction::Type` (Transaction.h lines 36-41). -/
inductive TransactionType
  | NullTransaction
  | ContractCreation
  | MessageCall
  deriving DecidableEq, Repr

/-- The three components of a signature: recovery id `v`, and the scalars `r`, `s`. -/
structure VRS where
  v : Nat
  r : u256
  s : u256
  deriving DecidableEq, Repr

/-- Modelled from the spec: the type `SignatureStruct` is declared in libdevcrypto, which is
not part of the two headers.  Section 3 of the spec gives the attribute as
"signature: optional {recoveryId, r, s}; absent before sign is called", so a
default-constructed signature is `none`. -/
abbrev SignatureStruct := Option VRS

/-- The data members of `class Transaction` (Transaction.h lines 77-86) with their default
member initialisers: `m_type = NullTransaction`, zero integers, zero addresses, empty data. -/
structure Transaction where
  m_type : TransactionType := TransactionType.NullTransaction
  m_nonce : u256 := 0
  m_value : u256 := 0
  m_receiveAddress : Address := 0
  m_gasPrice : u256 := 0
  m_gas : u256 := 0
  m_data : bytes := []
  m_vrs : SignatureStruct := none
  m_sender : Address := 0
  deriving DecidableEq, Repr

/-- Collaborators whose code is outside the two headers, taken as parameters: the codec, the
digest, the views, the signature provider and the short rendering of an address. -/
structure Externals where
  /-- The codec: `RLPStream::out()` of a stream holding one list of byte-string items. -/
  encode : List bytes → bytes
  /-- The codec: the items of an encoded list, when the bytes parse. -/
  decode : bytes → Option (List bytes)
  /-- The digest `dev::sha3`. -/
  sha3 : bytes → h256
  /-- The byte-returning digest `dev::sha3Bytes`. -/
  sha3Bytes : bytes → bytes
  /-- The view `asString`. -/
  asString : bytes → String
  /-- The signature provider `sign(privateKey, digest)`. -/
  sign : Secret → h256 → VRS
  /-- The signature provider `recoverPublicKey`; `none` when recovery fails. -/
  recover : VRS → h256 → Option Public
  /-- The address of a public key (last 20 bytes of its digest). -/
  toAddress : Public → Address
  /-- The short rendering `FixedHash::abridged`. -/
  abridged : Address → String

namespace Transaction

/-! ### Accessors (Transaction.h lines 67-74) -/

def type (t : Transaction) : TransactionType := t.m_type
def nonce (t : Transaction) : u256 := t.m_nonce
def value (t : Transaction) : u256 := t.m_value
def receiveAddress (t : Transaction) : Address := t.m_receiveAddress
def gasPrice (t : Transaction) : u256 := t.m_gasPrice
def gas (t : Transaction) : u256 := t.m_gas
def data (t : Transaction) : bytes := t.m_data
def signature (t : Transaction) : SignatureStruct := t.m_vrs

/-- Line 58: `bool isCreation() const { return !m_receiveAddress; }`. -/
def isCreation (t : Transaction) : Bool := t.m_receiveAddress == 0

/-- Line 51: `operator==`. -/
def operatorEq (a c : Transaction) : Bool :=
  a.m_type == c.m_type
    && (a.m_type == TransactionType.ContractCreation || a.m_receiveAddress == c.m_receiveAddress)
    && a.m_value == c.m_value
    && a.m_data == c.m_data

/-- Line 52: `operator!=`. -/
def operatorNe (a c : Transaction) : Bool := !(operatorEq a c)

/-! ### Constructors from field values (Transaction.h lines 43-47) -/

/-- Line 43: `Transaction() {}`. -/
def ctorDefault : Transaction := {}

/-- Line 46: the unsigned message-call constructor. -/
def ctorMessageCall (_value _gasPrice _gas : u256) (_dest : Address) (_data : bytes) :
    Transaction :=
  { m_type := TransactionType.MessageCall, m_value := _value, m_receiveAddress := _dest,
    m_gasPrice := _gasPrice, m_gas := _gas, m_data := _data }

/-- Line 47: the unsigned creation constructor. -/
def ctorCreation (_value _gasPrice _gas : u256) (_data : bytes) : Transaction :=
  { m_type := TransactionType.ContractCreation, m_value := _value, m_gasPrice := _gasPrice,
    m_gas := _gas, m_data := _data }

/-! ### Canonical encoding -/

/-- Modelled from the spec: the raw bytes of a fixed-width hash such as the 20-byte
destination (section 6: "raw bytes for byte strings"), most significant byte first. -/
def toBigEndianFixed : Nat → Nat → bytes
  | 0, _ => []
  | k + 1, n => toBigEndianFixed k (n / 256) ++ [n % 256]

/-- Minimal big-endian bytes with explicit fuel; fuel `n` always suffices for `n`. -/
def toBigEndianAux : Nat → Nat → bytes
  | 0, _ => []
  | f + 1, n => if n = 0 then [] else toBigEndianAux f (n / 256) ++ [n % 256]

/-- Modelled from the spec: the integer items of the encoding, which section 6 gives as
"big-endian minimal representation for integers"; zero is the empty byte string. -/
def toBigEndian (n : Nat) : bytes := toBigEndianAux n n

/-- Modelled from the spec: the number a big-endian byte string denotes (section 6). -/
def fromBigEndian (bs : bytes) : Nat := bs.foldl (fun acc b => acc * 256 + b) 0

/-- The items appended so far to the list an `RLPStream` is writing. -/
abbrev RLPStream := List bytes

/-- The bytes of a stream, `RLPStream::out()`: the external codec applied to its items. -/
def RLPStream.out (E : Externals) (s : RLPStream) : bytes := E.encode s

/-- Modelled from the spec: the body of `Transaction::streamRLP` (declared on line 60, defined
in Transaction.cpp).  Section 4.1: "emits, in fixed order: nonce, gasPrice, gasLimit,
destination (empty byte string if ContractCreation), value, payload, and - only if
includeSignature is true and a signature is present - recoveryId, r, s appended in that
order".  The destination of any other kind is the 20 raw bytes of the address. -/
def streamRLP (t : Transaction) (_s : RLPStream) (_sig : Bool) : RLPStream :=
  let dest : bytes :=
    if t.m_type = TransactionType.ContractCreation then [] else toBigEndianFixed 20 t.m_receiveAddress
  let fields : List bytes :=
    [toBigEndian t.m_nonce, toBigEndian t.m_gasPrice, toBigEndian t.m_gas, dest,
      toBigEndian t.m_value, t.m_data]
  let sigItems : List bytes :=
    match _sig, t.m_vrs with
    | true, some vrs => [toBigEndian vrs.v, toBigEndian vrs.r, toBigEndian vrs.s]
    | _, _ => []
  _s ++ fields ++ sigItems

/-- Line 62: `bytes rlp(bool _sig) const { RLPStream s; streamRLP(s, _sig); return s.out(); }`. -/
def rlp (E : Externals) (t : Transaction) (_sig : Bool) : bytes :=
  let s : RLPStream := []
  let s := streamRLP t s _sig
  RLPStream.out E s

/-- Line 63: `rlpString`. -/
def rlpString (E : Externals) (t : Transaction) (_sig : Bool) : String :=
  E.asString (rlp E t _sig)

/-- Line 64: `sha3`, which builds its own stream. -/
def sha3 (E : Externals) (t : Transaction) (_sig : Bool) : h256 :=
  let s : RLPStream := []
  let s := streamRLP t s _sig
  E.sha3 (RLPStream.out E s)

/-- Line 65: `sha3Bytes`, which builds its own stream. -/
def sha3Bytes (E : Externals) (t : Transaction) (_sig : Bool) : bytes :=
  let s : RLPStream := []
  let s := streamRLP t s _sig
  E.sha3Bytes (RLPStream.out E s)

/-! ### Signing and sender recovery -/

/-- The error kinds of section 7 of the spec that concern the transaction. -/
inductive TransactionException
  | MissingSignature
  | InvalidSignature
  | InvalidTransactionFormat
  deriving DecidableEq, Repr

/-- Modelled from the spec: the body of `Transaction::sign` (declared on line 56).  Section
4.1: "Computes digestUnsigned = hash(canonicalEncode(fields, includeSignature=false)), invokes
the Signature Provider, and stores the resulting (recoveryId, r, s) as signature"; re-signing
"must clear the cache". -/
def sign (E : Externals) (t : Transaction) (_priv : Secret) : Transaction :=
  { t with m_vrs := some (E.sign _priv (sha3 E t false)), m_sender := 0 }

/-- Line 44: the signed message-call constructor: member initialisers, then `sign(_secret)`. -/
def ctorMessageCallSigned (E : Externals) (_value _gasPrice _gas : u256) (_dest : Address)
    (_data : bytes) (_nonce : u256) (_secret : Secret) : Transaction :=
  sign E
    { m_type := TransactionType.MessageCall, m_nonce := _nonce, m_value := _value,
      m_receiveAddress := _dest, m_gasPrice := _gasPrice, m_gas := _gas, m_data := _data }
    _secret

/-- Line 45: the signed creation constructor: member initialisers, then `sign(_secret)`. -/
def ctorCreationSigned (E : Externals) (_value _gasPrice _gas : u256) (_data : bytes)
    (_nonce : u256) (_secret : Secret) : Transaction :=
  sign E
    { m_type := TransactionType.ContractCreation, m_nonce := _nonce, m_value := _value,
      m_gasPrice := _gasPrice, m_gas := _gas, m_data := _data }
    _secret

/-- Modelled from the spec: the body of `Transaction::sender` (declared on line 55).  Section
4.1: a cached address is returned without recomputation; otherwise an absent signature fails
with MissingSignature, a failed recovery fails with InvalidSignature (nothing is cached), and a
successful recovery stores the derived address in the cache and returns it.  The result holds
the address and the transaction with its cache updated. -/
def sender (E : Externals) (t : Transaction) :
    Except TransactionException (Address × Transaction) :=
  if t.m_sender ≠ 0 then Except.ok (t.m_sender, t)
  else
    match t.m_vrs with
    | none => Except.error TransactionException.MissingSignature
    | some vrs =>
      match E.recover vrs (sha3 E t false) with
      | none => Except.error TransactionException.InvalidSignature
      | some p => Except.ok (E.toAddress p, { t with m_sender := E.toAddress p })

/-! ### Construction from bytes -/

/-- Modelled from the spec: an integer item is read big-endian; section 7 and property 7 of
section 8 reject a malformed or oversized integer, so more than 32 bytes or a leading zero
byte give no value. -/
def toInt (item : bytes) : Option u256 :=
  if item.length ≤ 32 ∧ item.head? ≠ some 0 then some (fromBigEndian item) else none

/-- Modelled from the spec: the destination item; section 4.1 derives the kind from "whether
the decoded destination field is an empty byte string", and an address has 20 bytes. -/
def toDestination (item : bytes) : Option (TransactionType × Address) :=
  if item = [] then some (TransactionType.ContractCreation, 0)
  else if item.length = 20 then some (TransactionType.MessageCall, fromBigEndian item)
  else none

/-- Modelled from the spec: the fields of a decoded item list, in the unsigned item order
(six items) or the signed item order (nine items) of section 6; any other item count gives
no transaction. -/
def fromItems (items : List bytes) : Option Transaction :=
  match items with
  | [n, gp, g, d, v, dat] => do
    let nonce ← toInt n
    let gasPrice ← toInt gp
    let gas ← toInt g
    let dest ← toDestination d
    let value ← toInt v
    pure { m_type := dest.1, m_nonce := nonce, m_value := value, m_receiveAddress := dest.2,
           m_gasPrice := gasPrice, m_gas := gas, m_data := dat }
  | [n, gp, g, d, v, dat, sv, sr, ss] => do
    let nonce ← toInt n
    let gasPrice ← toInt gp
    let gas ← toInt g
    let dest ← toDestination d
    let value ← toInt v
    let rv ← toInt sv
    let r ← toInt sr
    let s ← toInt ss
    pure { m_type := dest.1, m_nonce := nonce, m_value := value, m_receiveAddress := dest.2,
           m_gasPrice := gasPrice, m_gas := gas, m_data := dat,
           m_vrs := some { v := rv, r := r, s := s } }
  | _ => none

/-- Modelled from the spec: the body of `Transaction::Transaction(bytesConstRef, bool)`
(declared on line 48).  Section 4.1: "parses the canonical encoding into fields.  kind is
derived from whether the decoded destination field is an empty byte string.  If
verifySenderEagerly is true, sender recovery is attempted immediately and the constructor fails
with InvalidTransactionFormat if recovery fails"; section 3: the signature is "populated
directly from the decoded fields"; section 7: bytes that are not the expected item list (wrong
item count, malformed integer) fail with InvalidTransactionFormat. -/
def ctorRlp (E : Externals) (_rlp : bytes) (_checkSender : Bool) :
    Except TransactionException Transaction :=
  match E.decode _rlp with
  | none => Except.error TransactionException.InvalidTransactionFormat
  | some items =>
    match fromItems items with
    | none => Except.error TransactionException.InvalidTransactionFormat
    | some t =>
      if _checkSender then
        match sender E t with
        | Except.ok (_, t1) => Except.ok t1
        | Except.error _ => Except.error TransactionException.InvalidTransactionFormat
      else Except.ok t

/-- A transaction whose fields fit: a message call or a creation, a creation has no
destination, and every number is within the width of its type. -/
def WellFormed (t : Transaction) : Prop :=
  (t.m_type = TransactionType.MessageCall ∨ t.m_type = TransactionType.ContractCreation)
  ∧ (t.m_type = TransactionType.ContractCreation → t.m_receiveAddress = 0)
  ∧ t.m_nonce < 2 ^ 256 ∧ t.m_gasPrice < 2 ^ 256 ∧ t.m_gas < 2 ^ 256 ∧ t.m_value < 2 ^ 256
  ∧ t.m_receiveAddress < 2 ^ 160
  ∧ (∀ vrs ∈ t.m_vrs, vrs.v < 2 ^ 256 ∧ vrs.r < 2 ^ 256 ∧ vrs.s < 2 ^ 256)

instance (t : Transaction) : Decidable (WellFormed t) := by
  unfold WellFormed
  infer_instance

/-! ### Rendering (Transaction.h lines 91-107) -/

/-- The order in which the two operands of `_out << "<-" << _t.sender().abridged()` are
evaluated.  Since C++17 the left operand of `<<` is sequenced first (`markerFirst`); before
C++17 the order is unspecified and a compiler may call `sender()` first (`senderFirst`). -/
inductive EvalOrder
  | markerFirst
  | senderFirst
  deriving DecidableEq, Repr

/-- Line 102, the statement inside `try`: the stream afterwards and the exception that left
the statement, if any. -/
def tryStatement (E : Externals) (order : EvalOrder) (_out : String) (_t : Transaction) :
    String × Option TransactionException :=
  match order with
  | EvalOrder.senderFirst =>
    match sender E _t with
    | Except.ok (a, _) => (_out ++ "<-" ++ E.abridged a, none)
    | Except.error e => (_out, some e)
  | EvalOrder.markerFirst =>
    match sender E _t with
    | Except.ok (a, _) => (_out ++ "<-" ++ E.abridged a, none)
    | Except.error e => (_out ++ "<-", some e)

/-- Lines 91-107: `operator<<`.  The result is the text written to the stream and the
exception that leaves the function, if any; `catch (...) {}` discards the exception of the
`try` statement.  Numbers are written in decimal.  The sender cache that `sender()` may fill
does not affect the text and is not part of the result. -/
def operatorShl (E : Externals) (order : EvalOrder) (_out : String) (_t : Transaction) :
    String × Option TransactionException :=
  let out := _out ++ "\x7b"
  let out :=
    if _t.receiveAddress ≠ 0 then out ++ E.abridged _t.receiveAddress else out ++ "[CREATE]"
  let out := out ++ "/" ++ toString _t.nonce ++ "$" ++ toString _t.value ++ "+"
    ++ toString _t.gas ++ "@" ++ toString _t.gasPrice
  let out := (tryStatement E order out _t).1
  let out := out ++ " #" ++ toString _t.data.length ++ "\x7d"
  (out, none)

/-- The rendering in the words of the claim about `operator<<`: the destination or
"[CREATE]", then nonce, value, gas and gas price, the "<-sender" part exactly when sender
recovery succeeds, then " #", the payload length and the closing brace. -/
def renderingAsClaimed (E : Externals) (_t : Transaction) : String :=
  "\x7b" ++ (if _t.isCreation then "[CREATE]" else E.abridged _t.receiveAddress)
    ++ "/" ++ toString _t.nonce ++ "$" ++ toString _t.value ++ "+" ++ toString _t.gas
    ++ "@" ++ toString _t.gasPrice
    ++ (match sender E _t with
        | Except.ok (a, _) => "<-" ++ E.abridged a
        | Except.error _ => "")
    ++ " #" ++ toString _t.data.length ++ "\x7d"

end Transaction

end eth
end dev

/-! ## The miner CLI (MinerAux.h) -/

/-- The exceptions that can leave `MinerCLI::interpretOption`: the class `BadArgument`
(line 78) and the two exceptions `std::stol` throws. -/
inductive Exception
  | BadArgument
  | invalid_argument
  | out_of_range
  deriving DecidableEq, Repr

/-- The characters `std::isspace` accepts in the C locale. -/
def isSpace (c : Char) : Bool := c.toNat == 32 || (9 ≤ c.toNat && c.toNat ≤ 13)

/-- The library function `std::stol(str)` with base 10 and a 64-bit `long`: leading white space
is skipped, an optional sign is read, then the longest run of decimal digits; characters after
the digits are ignored.  No digit at all throws `std::invalid_argument`, a value outside
`long` throws `std::out_of_range`. -/
def stol (str : String) : Except Exception Int :=
  let cs := str.toList.dropWhile isSpace
  let signed : Bool × List Char :=
    match cs with
    | '-' :: rest => (true, rest)
    | '+' :: rest => (false, rest)
    | _ => (false, cs)
  let digits := signed.2.takeWhile Char.isDigit
  if digits = [] then Except.error Exception.invalid_argument
  else
    let n : Nat := digits.foldl (fun acc c => acc * 10 + (c.toNat - 48)) 0
    let v : Int := if signed.1 then -(n : Int) else (n : Int)
    if v < -(2 ^ 63 : Int) ∨ (2 ^ 63 : Int) - 1 < v then Except.error Exception.out_of_range
    else Except.ok v

/-- Conversion of a `long` to `unsigned` (32 bits). -/
def toUnsigned (v : Int) : Nat := (v % (2 ^ 32 : Int)).toNat

/-- Conversion of a `long` to `uint64_t`. -/
def toUInt64 (v : Int) : Nat := (v % (2 ^ 64 : Int)).toNat

/-- The enum `MinerCLI::OperationMode` (lines 83-87). -/
inductive OperationMode
  | None
  | Benchmark
  deriving DecidableEq, Repr

/-- The data members of `MinerCLI` (lines 232-243) with their default member initialisers;
`UINT_MAX` is `4294967295`. -/
structure MinerCLI where
  mode : OperationMode
  m_minerType : String := "cpu"
  m_miningThreads : Nat := 4294967295
  m_currentBlock : Nat := 0
  m_benchmarkWarmup : Nat := 3
  m_benchmarkTrial : Nat := 3
  m_benchmarkTrials : Nat := 5
  deriving DecidableEq, Repr

/-- How a call of `interpretOption` ends. -/
inductive Outcome
  | returned (b : Bool)
  | threw (e : Exception)
  deriving DecidableEq, Repr

/-- The state after a call of `interpretOption`: how it ended, the index `i` (passed by
reference), the settings, and the text written to `cerr`. -/
structure InterpretResult where
  outcome : Outcome
  i : Nat
  cli : MinerCLI
  cerr : String
  deriving DecidableEq, Repr

/-- A call that `execute` makes. -/
inductive Call
  | setNumInstances (n : Nat)
  | doBenchmark (_m : String) (_warmupDuration _trialDuration _trials : Nat)
  deriving DecidableEq, Repr

namespace MinerCLI

/-- Lines 90-95: the constructor; the three `init()` calls register seal engines and touch no
member.  The default argument is `OperationMode::None`. -/
def ctor (_mode : OperationMode) : MinerCLI := { mode := _mode }

/-- The shape shared by lines 102-109, 111-118, 120-127 and 136-143:
`try { member = stol(argv[++i]); } catch (...) { cerr << ...; throw BadArgument(); }`. -/
def tryStol (cli : MinerCLI) (arg : String) (i : Nat) (argv : List String)
    (assign : MinerCLI → Nat → MinerCLI) : InterpretResult :=
  let i := i + 1
  match stol (argv.getD i "") with
  | Except.ok v =>
    { outcome := Outcome.returned true, i := i, cli := assign cli (toUnsigned v), cerr := "" }
  | Except.error _ =>
    { outcome := Outcome.threw Exception.BadArgument, i := i, cli := cli,
      cerr := "Bad " ++ arg ++ " option: " ++ argv.getD i "" ++ "\n" }

/-- Lines 97-148: `interpretOption`.  `none` stands for the out-of-range read `argv[i]`. -/
def interpretOption (cli : MinerCLI) (i : Nat) (argv : List String) : Option InterpretResult :=
  match argv[i]? with
  | none => none
  | some arg =>
    let argc := argv.length
    if arg = "--benchmark-warmup" ∧ i + 1 < argc then
      some (tryStol cli arg i argv (fun c v => { c with m_benchmarkWarmup := v }))
    else if arg = "--benchmark-trial" ∧ i + 1 < argc then
      some (tryStol cli arg i argv (fun c v => { c with m_benchmarkTrial := v }))
    else if arg = "--benchmark-trials" ∧ i + 1 < argc then
      some (tryStol cli arg i argv (fun c v => { c with m_benchmarkTrials := v }))
    else if arg = "-C" ∨ arg = "--cpu" then
      some { outcome := Outcome.returned true, i := i, cli := { cli with m_minerType := "cpu" },
             cerr := "" }
    else if arg = "--current-block" ∧ i + 1 < argc then
      match stol (argv.getD (i + 1) "") with
      | Except.ok v =>
        some { outcome := Outcome.returned true, i := i + 1,
               cli := { cli with m_currentBlock := toUInt64 v }, cerr := "" }
      | Except.error e =>
        some { outcome := Outcome.threw e, i := i + 1, cli := cli, cerr := "" }
    else if arg = "-M" ∨ arg = "--benchmark" then
      some { outcome := Outcome.returned true, i := i,
             cli := { cli with mode := OperationMode.Benchmark }, cerr := "" }
    else if (arg = "-t" ∨ arg = "--mining-threads") ∧ i + 1 < argc then
      some (tryStol cli arg i argv (fun c v => { c with m_miningThreads := v }))
    else
      some { outcome := Outcome.returned false, i := i, cli := cli, cerr := "" }

/-- Lines 150-156: `execute`, as the list of calls it makes. -/
def execute (cli : MinerCLI) : List Call :=
  if cli.m_minerType = "cpu" then [Call.setNumInstances cli.m_miningThreads]
  else if cli.mode = OperationMode.Benchmark then
    [Call.doBenchmark cli.m_minerType cli.m_benchmarkWarmup cli.m_benchmarkTrial
      cli.m_benchmarkTrials]
  else []

/-- The options that take a value in the next element of `argv`. -/
def valueOptions : List String :=
  ["--benchmark-warmup", "--benchmark-trial", "--benchmark-trials", "--current-block", "-t",
    "--mining-threads"]

/-- The options that stand alone. -/
def flagOptions : List String := ["-C", "--cpu", "-M", "--benchmark"]

end MinerCLI

/-! ## Concrete collaborators used to instantiate the theorems -/

namespace dev
namespace eth

/-- A length-prefixed codec: every item is written as its length followed by its bytes. -/
def lengthPrefixedEncode (items : List bytes) : bytes :=
  match items with
  | [] => []
  | item :: rest => (item.length :: item) ++ lengthPrefixedEncode rest

/-- The decoder of the length-prefixed codec, with fuel. -/
def lengthPrefixedDecodeAux : Nat → bytes → Option (List bytes)
  | _, [] => some []
  | 0, _ :: _ => none
  | f + 1, n :: rest =>
    if rest.length < n then none
    else (lengthPrefixedDecodeAux f (rest.drop n)).map (fun items => rest.take n :: items)

/-- The decoder of the length-prefixed codec; the length of the input is enough fuel. -/
def lengthPrefixedDecode (bs : bytes) : Option (List bytes) :=
  lengthPrefixedDecodeAux bs.length bs

/-- Concrete collaborators: the length-prefixed codec, the sum of the bytes as digest, and a
signature scheme in which `r - s` must equal the digest and `s` is the key. -/
def sampleExternals : Externals where
  encode := lengthPrefixedEncode
  decode := lengthPrefixedDecode
  sha3 := fun bs => bs.sum
  sha3Bytes := fun bs => [bs.sum % 256]
  asString := fun bs => String.mk (bs.map Char.ofNat)
  sign := fun key digest => { v := 0, r := key + digest, s := key }
  recover := fun vrs digest => if vrs.r = vrs.s + digest then some vrs.s else none
  toAddress := fun p => p % 2 ^ 160
  abridged := fun a => toString a

/-- A signed message call: value 1000, gas price 1, gas 21000, destination 3735928559, one
byte of data, nonce 7, key 5. -/
def sampleMessageCall : Transaction :=
  Transaction.ctorMessageCallSigned sampleExternals 1000 1 21000 3735928559 [42] 7 5

end eth
end dev

/-! ## Theorems: transaction equality -/

namespace dev
namespace eth
namespace Transaction

theorem operatorEq_eq_true_iff (a b : Transaction) :
    operatorEq a b = true ↔
      (a.m_type = b.m_type
        ∧ (a.m_type = TransactionType.ContractCreation ∨ a.m_receiveAddress = b.m_receiveAddress)
        ∧ a.m_value = b.m_value ∧ a.m_data = b.m_data) := by
  simp [operatorEq, and_assoc]

/-- C1: `a == b` holds exactly when the types match, the destinations match (not compared when
the type of `a` is ContractCreation), the values match and the data match.  Replacing nonce,
gas price, gas, signature and cached sender of either operand leaves the result unchanged;
giving one of two equal transactions another value, other data or, for a MessageCall, another
destination makes them unequal. -/
theorem operatorEq_narrow (a b : Transaction) :
    (operatorEq a b = true ↔
      (a.type = b.type
        ∧ (a.type = TransactionType.ContractCreation ∨ a.receiveAddress = b.receiveAddress)
        ∧ a.value = b.value ∧ a.data = b.data))
    ∧ (∀ (n gp g : u256) (sig : SignatureStruct) (snd : Address),
        operatorEq { a with m_nonce := n, m_gasPrice := gp, m_gas := g, m_vrs := sig,
                            m_sender := snd } b = operatorEq a b
        ∧ operatorEq a { b with m_nonce := n, m_gasPrice := gp, m_gas := g, m_vrs := sig,
                                m_sender := snd } = operatorEq a b)
    ∧ (∀ v : u256, operatorEq a b = true → v ≠ b.value →
        operatorEq a { b with m_value := v } = false
        ∧ operatorEq { b with m_value := v } a = false)
    ∧ (∀ d : bytes, operatorEq a b = true → d ≠ b.data →
        operatorEq a { b with m_data := d } = false
        ∧ operatorEq { b with m_data := d } a = false)
    ∧ (∀ dst : Address, operatorEq a b = true → b.type = TransactionType.MessageCall →
        dst ≠ b.receiveAddress →
        operatorEq a { b with m_receiveAddress := dst } = false
        ∧ operatorEq { b with m_receiveAddress := dst } a = false) := by
  refine ⟨operatorEq_eq_true_iff a b, ?_, ?_, ?_, ?_⟩
  · intro n gp g sig snd
    exact ⟨rfl, rfl⟩
  · intro v hab hv
    rw [operatorEq_eq_true_iff] at hab
    obtain ⟨_, _, h3, _⟩ := hab
    simp only [value] at hv
    constructor
    · rw [← Bool.not_eq_true, operatorEq_eq_true_iff]
      rintro ⟨_, _, h, _⟩
      exact hv (by simpa [h3] using h.symm)
    · rw [← Bool.not_eq_true, operatorEq_eq_true_iff]
      rintro ⟨_, _, h, _⟩
      exact hv (by simpa [h3] using h)
  · intro d hab hd
    rw [operatorEq_eq_true_iff] at hab
    obtain ⟨_, _, _, h4⟩ := hab
    simp only [data] at hd
    constructor
    · rw [← Bool.not_eq_true, operatorEq_eq_true_iff]
      rintro ⟨_, _, _, h⟩
      exact hd (by simpa [h4] using h.symm)
    · rw [← Bool.not_eq_true, operatorEq_eq_true_iff]
      rintro ⟨_, _, _, h⟩
      exact hd (by simpa [h4] using h)
  · intro dst hab hty hdst
    rw [operatorEq_eq_true_iff] at hab
    obtain ⟨h1, h2, _, _⟩ := hab
    simp only [type, receiveAddress] at hty hdst
    have hne : a.m_type ≠ TransactionType.ContractCreation := by rw [h1, hty]; decide
    have haddr : a.m_receiveAddress = b.m_receiveAddress := h2.resolve_left hne
    constructor
    · rw [← Bool.not_eq_true, operatorEq_eq_true_iff]
      rintro ⟨_, h, _, _⟩
      rcases h with h | h
      · exact hne h
      · exact hdst (by simpa [haddr] using h.symm)
    · rw [← Bool.not_eq_true, operatorEq_eq_true_iff]
      rintro ⟨_, h, _, _⟩
      rcases h with h | h
      · simp only at h
        rw [hty] at h
        exact absurd h (by decide)
      · exact hdst (by simpa [haddr] using h)

/-- C10: `operator==` is reflexive, symmetric and transitive, and `operator!=` is its
negation. -/
theorem operatorEq_equivalence (a b c : Transaction) :
    operatorEq a a = true
    ∧ (operatorEq a b = true → operatorEq b a = true)
    ∧ (operatorEq a b = true → operatorEq b c = true → operatorEq a c = true)
    ∧ operatorNe a b = !(operatorEq a b) := by
  refine ⟨?_, ?_, ?_, rfl⟩
  · rw [operatorEq_eq_true_iff]
    exact ⟨rfl, Or.inr rfl, rfl, rfl⟩
  · intro h
    rw [operatorEq_eq_true_iff] at h ⊢
    obtain ⟨h1, h2, h3, h4⟩ := h
    refine ⟨h1.symm, ?_, h3.symm, h4.symm⟩
    rcases h2 with h2 | h2
    · exact Or.inl (h1 ▸ h2)
    · exact Or.inr h2.symm
  · intro hab hbc
    rw [operatorEq_eq_true_iff] at hab hbc ⊢
    obtain ⟨h1, h2, h3, h4⟩ := hab
    obtain ⟨k1, k2, k3, k4⟩ := hbc
    refine ⟨h1.trans k1, ?_, h3.trans k3, h4.trans k4⟩
    rcases h2 with h2 | h2
    · exact Or.inl h2
    · rcases k2 with k2 | k2
      · exact Or.inl (h1.trans k2)
      · exact Or.inr (h2.trans k2)

end Transaction
end eth
end dev

/-! ## Theorems: construction and the views of the encoding -/

namespace dev
namespace eth
namespace Transaction

/-- C5: the unsigned message-call constructor yields type MessageCall, the accessors return the
corresponding arguments and the nonce is 0; the unsigned creation constructor yields type
ContractCreation, the same accessors, nonce 0 and an absent destination. -/
theorem ctor_unsigned_fields (_value _gasPrice _gas : u256) (_dest : Address) (_data : bytes) :
    ((ctorMessageCall _value _gasPrice _gas _dest _data).type = TransactionType.MessageCall
      ∧ (ctorMessageCall _value _gasPrice _gas _dest _data).value = _value
      ∧ (ctorMessageCall _value _gasPrice _gas _dest _data).gasPrice = _gasPrice
      ∧ (ctorMessageCall _value _gasPrice _gas _dest _data).gas = _gas
      ∧ (ctorMessageCall _value _gasPrice _gas _dest _data).receiveAddress = _dest
      ∧ (ctorMessageCall _value _gasPrice _gas _dest _data).data = _data
      ∧ (ctorMessageCall _value _gasPrice _gas _dest _data).nonce = 0)
    ∧ ((ctorCreation _value _gasPrice _gas _data).type = TransactionType.ContractCreation
      ∧ (ctorCreation _value _gasPrice _gas _data).value = _value
      ∧ (ctorCreation _value _gasPrice _gas _data).gasPrice = _gasPrice
      ∧ (ctorCreation _value _gasPrice _gas _data).gas = _gas
      ∧ (ctorCreation _value _gasPrice _gas _data).data = _data
      ∧ (ctorCreation _value _gasPrice _gas _data).nonce = 0
      ∧ (ctorCreation _value _gasPrice _gas _data).receiveAddress = 0
      ∧ (ctorCreation _value _gasPrice _gas _data).isCreation = true) :=
  ⟨⟨rfl, rfl, rfl, rfl, rfl, rfl, rfl⟩, ⟨rfl, rfl, rfl, rfl, rfl, rfl, rfl, rfl⟩⟩

/-- C2, as stated, fails: the default constructor and the message-call constructor with the
zero destination give `isCreation()` true although the type is not ContractCreation. -/
theorem ctor_type_iff_isCreation_fails :
    ¬ (ctorDefault.type = TransactionType.ContractCreation ↔ ctorDefault.isCreation = true)
    ∧ ¬ ((ctorMessageCall 1000 1 21000 0 []).type = TransactionType.ContractCreation
          ↔ (ctorMessageCall 1000 1 21000 0 []).isCreation = true) := by
  constructor <;> decide

/-- C2, amended: for the creation constructors, and for the message-call constructors with a
destination other than the zero address, `type() == ContractCreation` holds exactly when
`isCreation()` returns true: the creation constructors give type ContractCreation, the
message-call constructors give type MessageCall, and the default constructor gives type
NullTransaction. -/
theorem ctor_type_iff_isCreation (E : Externals) (_value _gasPrice _gas : u256)
    (_dest : Address) (_data : bytes) (_nonce : u256) (_secret : Secret) (hdest : _dest ≠ 0) :
    ((ctorCreation _value _gasPrice _gas _data).type = TransactionType.ContractCreation
      ↔ (ctorCreation _value _gasPrice _gas _data).isCreation = true)
    ∧ ((ctorCreationSigned E _value _gasPrice _gas _data _nonce _secret).type
          = TransactionType.ContractCreation
      ↔ (ctorCreationSigned E _value _gasPrice _gas _data _nonce _secret).isCreation = true)
    ∧ ((ctorMessageCall _value _gasPrice _gas _dest _data).type
          = TransactionType.ContractCreation
      ↔ (ctorMessageCall _value _gasPrice _gas _dest _data).isCreation = true)
    ∧ ((ctorMessageCallSigned E _value _gasPrice _gas _dest _data _nonce _secret).type
          = TransactionType.ContractCreation
      ↔ (ctorMessageCallSigned E _value _gasPrice _gas _dest _data _nonce _secret).isCreation
          = true)
    ∧ (ctorCreation _value _gasPrice _gas _data).type = TransactionType.ContractCreation
    ∧ (ctorCreationSigned E _value _gasPrice _gas _data _nonce _secret).type
        = TransactionType.ContractCreation
    ∧ (ctorMessageCall _value _gasPrice _gas _dest _data).type = TransactionType.MessageCall
    ∧ (ctorMessageCallSigned E _value _gasPrice _gas _dest _data _nonce _secret).type
        = TransactionType.MessageCall
    ∧ ctorDefault.type = TransactionType.NullTransaction := by
  refine ⟨?_, ?_, ?_, ?_, rfl, rfl, rfl, rfl, rfl⟩
  · exact ⟨fun _ => rfl, fun _ => rfl⟩
  · exact ⟨fun _ => rfl, fun _ => rfl⟩
  · simp [ctorMessageCall, isCreation, type, hdest]
  · simp [ctorMessageCallSigned, sign, isCreation, type, hdest]

/-- Witness of the amended C2: the constructors at value 1000, gas price 1, gas 21000,
destination 3735928559, one byte of data, nonce 7 and key 5. -/
theorem ctor_type_iff_isCreation_witness :
    (3735928559 : Address) ≠ 0
    ∧ ((ctorMessageCallSigned sampleExternals 1000 1 21000 3735928559 [42] 7 5).type
          = TransactionType.ContractCreation
      ↔ (ctorMessageCallSigned sampleExternals 1000 1 21000 3735928559 [42] 7 5).isCreation
          = true) :=
  ⟨by decide,
    (ctor_type_iff_isCreation sampleExternals 1000 1 21000 3735928559 [42] 7 5
      (by decide)).2.2.2.1⟩

/-- C4: for either flag, `sha3` is the digest of the bytes `rlp` returns, `sha3Bytes` is the
byte-returning digest of those bytes, and `rlpString` is their string view. -/
theorem views_of_one_encoding (E : Externals) (t : Transaction) (_sig : Bool) :
    sha3 E t _sig = E.sha3 (rlp E t _sig)
    ∧ sha3Bytes E t _sig = E.sha3Bytes (rlp E t _sig)
    ∧ rlpString E t _sig = E.asString (rlp E t _sig) :=
  ⟨rfl, rfl, rfl⟩

end Transaction
end eth
end dev

/-! ## Theorems: the round trip through the canonical encoding -/

namespace dev
namespace eth
namespace Transaction

theorem fromBigEndian_append_singleton (l : bytes) (b : Nat) :
    fromBigEndian (l ++ [b]) = fromBigEndian l * 256 + b := by
  simp [fromBigEndian, List.foldl_append]

theorem fromBigEndian_toBigEndianAux (f : Nat) :
    ∀ n : Nat, n ≤ f → fromBigEndian (toBigEndianAux f n) = n := by
  induction f with
  | zero =>
    intro n hn
    have : n = 0 := by omega
    subst this
    rfl
  | succ f ih =>
    intro n hn
    by_cases h0 : n = 0
    · subst h0
      simp [toBigEndianAux, fromBigEndian]
    · have hdiv : n / 256 ≤ f := by omega
      simp only [toBigEndianAux, h0, if_false]
      rw [fromBigEndian_append_singleton, ih _ hdiv]
      omega

theorem length_toBigEndianAux_le (f : Nat) :
    ∀ (n k : Nat), n < 256 ^ k → (toBigEndianAux f n).length ≤ k := by
  induction f with
  | zero => intro n k _; simp [toBigEndianAux]
  | succ f ih =>
    intro n k hk
    by_cases h0 : n = 0
    · subst h0
      simp [toBigEndianAux]
    · cases k with
      | zero => simp at hk; omega
      | succ k =>
        have hdiv : n / 256 < 256 ^ k := by
          rw [pow_succ] at hk
          exact Nat.div_lt_of_lt_mul (by omega)
        simp only [toBigEndianAux, h0, if_false, List.length_append, List.length_singleton]
        have := ih _ _ hdiv
        omega

theorem head?_toBigEndianAux (f : Nat) :
    ∀ n : Nat, n ≤ f → (toBigEndianAux f n).head? ≠ some 0 := by
  induction f with
  | zero => intro n _; simp [toBigEndianAux]
  | succ f ih =>
    intro n hn
    by_cases h0 : n = 0
    · subst h0
      simp [toBigEndianAux]
    · simp only [toBigEndianAux, h0, if_false]
      by_cases hd : n / 256 = 0
      · have hlt : n < 256 := by omega
        cases f with
        | zero => simp [toBigEndianAux]; omega
        | succ f => simp [toBigEndianAux, hd]; omega
      · have hdiv : n / 256 ≤ f := by omega
        have hih := ih _ hdiv
        cases f with
        | zero => omega
        | succ f =>
          have hne : toBigEndianAux (f + 1) (n / 256) ≠ [] := by
            simp [toBigEndianAux, hd]
          rw [List.head?_append_of_ne_nil _ hne]
          exact hih

theorem toInt_toBigEndian (n : Nat) (hn : n < 2 ^ 256) :
    toInt (toBigEndian n) = some n := by
  have hlen : (toBigEndian n).length ≤ 32 :=
    length_toBigEndianAux_le n n 32 (by norm_num at hn ⊢; exact hn)
  have hhead : (toBigEndian n).head? ≠ some 0 := head?_toBigEndianAux n n (le_refl n)
  have hval : fromBigEndian (toBigEndian n) = n := fromBigEndian_toBigEndianAux n n (le_refl n)
  simp [toInt, hlen, hhead, hval]

theorem length_toBigEndianFixed (k : Nat) : ∀ n : Nat, (toBigEndianFixed k n).length = k := by
  induction k with
  | zero => intro n; rfl
  | succ k ih => intro n; simp [toBigEndianFixed, ih]

theorem fromBigEndian_toBigEndianFixed (k : Nat) :
    ∀ n : Nat, n < 256 ^ k → fromBigEndian (toBigEndianFixed k n) = n := by
  induction k with
  | zero =>
    intro n hn
    simp at hn
    subst hn
    rfl
  | succ k ih =>
    intro n hn
    have hdiv : n / 256 < 256 ^ k := by
      rw [pow_succ] at hn
      exact Nat.div_lt_of_lt_mul (by omega)
    simp only [toBigEndianFixed]
    rw [fromBigEndian_append_singleton, ih _ hdiv]
    omega

theorem toDestination_toBigEndianFixed (a : Address) (ha : a < 2 ^ 160) :
    toDestination (toBigEndianFixed 20 a)
      = some (TransactionType.MessageCall, a) := by
  have hlen : (toBigEndianFixed 20 a).length = 20 := length_toBigEndianFixed 20 a
  have hne : toBigEndianFixed 20 a ≠ [] := by
    intro h
    rw [h] at hlen
    simp at hlen
  have hval : fromBigEndian (toBigEndianFixed 20 a) = a :=
    fromBigEndian_toBigEndianFixed 20 a (by norm_num at ha ⊢; exact ha)
  simp [toDestination, hne, hlen, hval]

theorem lengthPrefixedDecodeAux_encode (items : List bytes) :
    ∀ f : Nat, (lengthPrefixedEncode items).length ≤ f →
      lengthPrefixedDecodeAux f (lengthPrefixedEncode items) = some items := by
  induction items with
  | nil => intro f _; cases f <;> rfl
  | cons item rest ih =>
    intro f hf
    cases f with
    | zero => simp [lengthPrefixedEncode] at hf
    | succ f =>
      simp only [lengthPrefixedEncode, List.cons_append, List.length_cons,
        List.length_append] at hf
      have hrest : lengthPrefixedDecodeAux f (lengthPrefixedEncode rest) = some rest :=
        ih f (by omega)
      simp [lengthPrefixedEncode, lengthPrefixedDecodeAux, hrest]

theorem sampleExternals_codec (items : List bytes) :
    sampleExternals.decode (sampleExternals.encode items) = some items :=
  lengthPrefixedDecodeAux_encode items _ (le_refl _)

theorem fromItems_streamRLP (t : Transaction) (ht : WellFormed t) :
    fromItems (streamRLP t [] true) = some { t with m_sender := 0 } := by
  obtain ⟨hty, hcc, hn, hgp, hg, hv, ha, hsig⟩ := ht
  obtain ⟨ty, nonce, value, addr, gasPrice, gas, dat, vrs, snd⟩ := t
  simp only at hty hcc hn hgp hg hv ha hsig
  have e1 := toInt_toBigEndian nonce hn
  have e2 := toInt_toBigEndian gasPrice hgp
  have e3 := toInt_toBigEndian gas hg
  have e4 := toInt_toBigEndian value hv
  have e5 := toDestination_toBigEndianFixed addr ha
  rcases hty with hty | hty
  · subst hty
    cases vrs with
    | none => simp [streamRLP, fromItems, e1, e2, e3, e4, e5]
    | some sg =>
      obtain ⟨h1, h2, h3⟩ := hsig sg rfl
      have s1 := toInt_toBigEndian sg.v h1
      have s2 := toInt_toBigEndian sg.r h2
      have s3 := toInt_toBigEndian sg.s h3
      simp [streamRLP, fromItems, e1, e2, e3, e4, e5, s1, s2, s3]
  · subst hty
    have h0 : addr = 0 := hcc rfl
    subst h0
    cases vrs with
    | none => simp [streamRLP, fromItems, e1, e2, e3, e4, toDestination]
    | some sg =>
      obtain ⟨h1, h2, h3⟩ := hsig sg rfl
      have s1 := toInt_toBigEndian sg.v h1
      have s2 := toInt_toBigEndian sg.r h2
      have s3 := toInt_toBigEndian sg.s h3
      simp [streamRLP, fromItems, e1, e2, e3, e4, toDestination, s1, s2, s3]

/-- C3: for a codec that returns the items it was given, and every well-formed transaction
`t` (message call or creation, any data), constructing a transaction from `t.rlp(true)`
succeeds and gives the type, nonce, gas price, gas, destination, value, data and signature of
`t`; the sender cache of the result is empty. -/
theorem rlp_roundtrip (E : Externals)
    (hcodec : ∀ items : List bytes, E.decode (E.encode items) = some items)
    (t : Transaction) (ht : WellFormed t) :
    ∃ t1 : Transaction, ctorRlp E (rlp E t true) false = Except.ok t1
      ∧ t1.type = t.type ∧ t1.nonce = t.nonce ∧ t1.gasPrice = t.gasPrice ∧ t1.gas = t.gas
      ∧ t1.receiveAddress = t.receiveAddress ∧ t1.value = t.value ∧ t1.data = t.data
      ∧ t1.signature = t.signature ∧ t1.m_sender = 0 := by
  refine ⟨{ t with m_sender := 0 }, ?_, rfl, rfl, rfl, rfl, rfl, rfl, rfl, rfl, rfl⟩
  simp [ctorRlp, rlp, RLPStream.out, hcodec, fromItems_streamRLP t ht]

/-- Witness of C3: the signed sample message call survives the round trip through the
length-prefixed codec. -/
theorem rlp_roundtrip_witness :
    WellFormed sampleMessageCall
    ∧ ∃ t1 : Transaction,
        ctorRlp sampleExternals (rlp sampleExternals sampleMessageCall true) false = Except.ok t1
        ∧ t1.type = sampleMessageCall.type ∧ t1.nonce = sampleMessageCall.nonce
        ∧ t1.gasPrice = sampleMessageCall.gasPrice ∧ t1.gas = sampleMessageCall.gas
        ∧ t1.receiveAddress = sampleMessageCall.receiveAddress
        ∧ t1.value = sampleMessageCall.value ∧ t1.data = sampleMessageCall.data
        ∧ t1.signature = sampleMessageCall.signature ∧ t1.m_sender = 0 :=
  ⟨by decide, rlp_roundtrip sampleExternals sampleExternals_codec sampleMessageCall (by decide)⟩

end Transaction
end eth
end dev

/-! ## Theorems: rendering -/

namespace dev
namespace eth
namespace Transaction

/-- C6 at the failing input: for an unsigned message call `sender()` throws; when the left
operand of `<<` on line 102 is evaluated first, "<-" is already in the stream, so the text
holds a bare marker with no sender, unlike the rendering the claim describes.  When
`sender()` is evaluated first the same transaction is rendered as the claim describes. -/
theorem operatorShl_marker_without_sender :
    sender sampleExternals (ctorMessageCall 1000 1 21000 3735928559 [])
      = Except.error TransactionException.MissingSignature
    ∧ operatorShl sampleExternals EvalOrder.markerFirst ""
        (ctorMessageCall 1000 1 21000 3735928559 [])
      = ("\x7b3735928559/0$1000+21000@1<- #0\x7d", none)
    ∧ renderingAsClaimed sampleExternals (ctorMessageCall 1000 1 21000 3735928559 [])
      = "\x7b3735928559/0$1000+21000@1 #0\x7d"
    ∧ (operatorShl sampleExternals EvalOrder.markerFirst ""
        (ctorMessageCall 1000 1 21000 3735928559 [])).1
      ≠ renderingAsClaimed sampleExternals (ctorMessageCall 1000 1 21000 3735928559 [])
    ∧ (operatorShl sampleExternals EvalOrder.senderFirst ""
        (ctorMessageCall 1000 1 21000 3735928559 [])).1
      = renderingAsClaimed sampleExternals (ctorMessageCall 1000 1 21000 3735928559 []) := by
  decide

/-- The text `operator<<` writes, for either evaluation order of line 102: no exception
leaves the function; the text is the opening brace, "[CREATE]" or the destination, nonce,
value, gas and gas price, then what line 102 left in the stream, then " #", the payload
length and the closing brace.  Line 102 leaves "<-" and the sender when recovery succeeds;
when recovery fails it leaves nothing if `sender()` was evaluated first and the bare "<-"
otherwise.  With `sender()` evaluated first the text is `renderingAsClaimed`. -/
theorem operatorShl_rendering (E : Externals) (order : EvalOrder) (_out : String)
    (_t : Transaction) :
    (operatorShl E order _out _t).2 = none
    ∧ (operatorShl E order _out _t).1
        = _out ++ "\x7b" ++ (if _t.isCreation then "[CREATE]" else E.abridged _t.receiveAddress)
          ++ "/" ++ toString _t.nonce ++ "$" ++ toString _t.value ++ "+" ++ toString _t.gas
          ++ "@" ++ toString _t.gasPrice
          ++ (match sender E _t with
              | Except.ok (a, _) => "<-" ++ E.abridged a
              | Except.error _ => if order = EvalOrder.markerFirst then "<-" else "")
          ++ " #" ++ toString _t.data.length ++ "\x7d"
    ∧ (operatorShl E EvalOrder.senderFirst _out _t).1 = _out ++ renderingAsClaimed E _t := by
  refine ⟨rfl, ?_, ?_⟩
  · cases order <;> cases hs : sender E _t <;>
      by_cases hz : _t.m_receiveAddress = 0 <;>
      simp [operatorShl, tryStatement, hs, isCreation, receiveAddress, hz, String.append_assoc,
        -String.reduceAppend]
  · cases hs : sender E _t <;>
      by_cases hz : _t.m_receiveAddress = 0 <;>
      simp [operatorShl, tryStatement, renderingAsClaimed, hs, isCreation, receiveAddress, hz,
        String.append_assoc, -String.reduceAppend]

end Transaction
end eth
end dev

/-! ## Theorems: the miner CLI -/

namespace MinerCLI

/-- C7 at the failing input: on a fresh `MinerCLI`, "-M" and "--benchmark" are accepted and set
the mode to Benchmark, but `execute()` then only calls `setNumInstances(UINT_MAX)`, because the
miner type is "cpu" and the benchmark is in the `else` branch; `doBenchmark` is not called. -/
theorem execute_after_benchmark_option :
    interpretOption (ctor OperationMode.None) 0 ["-M"]
      = some { outcome := Outcome.returned true, i := 0,
               cli := { ctor OperationMode.None with mode := OperationMode.Benchmark },
               cerr := "" }
    ∧ interpretOption (ctor OperationMode.None) 0 ["--benchmark"]
      = some { outcome := Outcome.returned true, i := 0,
               cli := { ctor OperationMode.None with mode := OperationMode.Benchmark },
               cerr := "" }
    ∧ execute { ctor OperationMode.None with mode := OperationMode.Benchmark }
      = [Call.setNumInstances 4294967295] := by
  decide

/-- The miner type stays "cpu" through every call of `interpretOption`, so `execute()` never
reaches `doBenchmark`. -/
theorem execute_never_benchmarks (cli : MinerCLI) (h : cli.m_minerType = "cpu") :
    execute cli = [Call.setNumInstances cli.m_miningThreads]
    ∧ ∀ (i : Nat) (argv : List String) (r : InterpretResult),
        interpretOption cli i argv = some r → r.cli.m_minerType = "cpu" := by
  constructor
  · simp [execute, h]
  · intro i argv r hr
    unfold interpretOption at hr
    cases harg : argv[i]? with
    | none => simp [harg] at hr
    | some arg =>
      simp only [harg] at hr
      split_ifs at hr <;> first
        | (simp only [Option.some.injEq] at hr
           subst hr
           first
             | exact h
             | rfl
             | (simp only [tryStol]; split <;> exact h))
        | (split at hr <;> simp only [Option.some.injEq] at hr <;> subst hr <;> exact h)

/-- C8 at the failing input: "--current-block" followed by "abc" leaves `interpretOption` with
`std::invalid_argument`, not with `BadArgument`; nothing is written to `cerr`. -/
theorem currentBlock_bad_value :
    interpretOption (ctor OperationMode.None) 0 ["--current-block", "abc"]
      = some { outcome := Outcome.threw Exception.invalid_argument, i := 1,
               cli := ctor OperationMode.None, cerr := "" }
    ∧ interpretOption (ctor OperationMode.None) 0 ["--benchmark-warmup", "abc"]
      = some { outcome := Outcome.threw Exception.BadArgument, i := 1,
               cli := ctor OperationMode.None,
               cerr := "Bad --benchmark-warmup option: abc\n" } := by
  decide

theorem tryStol_i (cli : MinerCLI) (arg : String) (i : Nat) (argv : List String)
    (assign : MinerCLI → Nat → MinerCLI) : (tryStol cli arg i argv assign).i = i + 1 := by
  simp only [tryStol]
  split <;> rfl

/-- C9: for an index inside `argv`, `interpretOption` ends; if `argv[i]` is not a recognised
option, or is a value-taking option in the last position, it returns false and leaves `i`,
every setting and `cerr` as they were; when it returns true, `i` has advanced by one for a
value-taking option and is unchanged for a flag. -/
theorem interpretOption_frame (cli : MinerCLI) (i : Nat) (argv : List String)
    (h : i < argv.length) :
    ∃ r : InterpretResult, interpretOption cli i argv = some r
      ∧ (((argv[i] ∉ valueOptions ∧ argv[i] ∉ flagOptions)
            ∨ (argv[i] ∈ valueOptions ∧ i + 1 = argv.length)) →
          r = { outcome := Outcome.returned false, i := i, cli := cli, cerr := "" })
      ∧ (r.outcome = Outcome.returned true →
          (argv[i] ∈ valueOptions → r.i = i + 1) ∧ (argv[i] ∈ flagOptions → r.i = i)) := by
  have harg : argv[i]? = some argv[i] := List.getElem?_eq_getElem h
  generalize argv[i] = arg at harg ⊢
  unfold interpretOption
  simp only [harg]
  split_ifs with h1 h2 h3 h4 h5 h6 h7
  · obtain ⟨rfl, hlt⟩ := h1
    refine ⟨_, rfl, ?_, ?_⟩
    · rintro (⟨hv, _⟩ | ⟨_, hlast⟩)
      · exact absurd (by decide) hv
      · omega
    · intro _
      exact ⟨fun _ => tryStol_i _ _ _ _ _, fun hf => absurd hf (by decide)⟩
  · obtain ⟨rfl, hlt⟩ := h2
    refine ⟨_, rfl, ?_, ?_⟩
    · rintro (⟨hv, _⟩ | ⟨_, hlast⟩)
      · exact absurd (by decide) hv
      · omega
    · intro _
      exact ⟨fun _ => tryStol_i _ _ _ _ _, fun hf => absurd hf (by decide)⟩
  · obtain ⟨rfl, hlt⟩ := h3
    refine ⟨_, rfl, ?_, ?_⟩
    · rintro (⟨hv, _⟩ | ⟨_, hlast⟩)
      · exact absurd (by decide) hv
      · omega
    · intro _
      exact ⟨fun _ => tryStol_i _ _ _ _ _, fun hf => absurd hf (by decide)⟩
  · refine ⟨_, rfl, ?_, ?_⟩
    · rintro (⟨_, hf⟩ | ⟨hv, _⟩)
      · rcases h4 with rfl | rfl <;> exact absurd (by decide) hf
      · rcases h4 with rfl | rfl <;> exact absurd hv (by decide)
    · intro _
      refine ⟨fun hv => ?_, fun _ => rfl⟩
      rcases h4 with rfl | rfl <;> exact absurd hv (by decide)
  · obtain ⟨rfl, hlt⟩ := h5
    cases hs : stol (argv.getD (i + 1) "") with
    | ok v =>
      refine ⟨_, rfl, ?_, ?_⟩
      · rintro (⟨hv, _⟩ | ⟨_, hlast⟩)
        · exact absurd (by decide) hv
        · omega
      · intro _
        exact ⟨fun _ => rfl, fun hf => absurd hf (by decide)⟩
    | error e =>
      refine ⟨_, rfl, ?_, ?_⟩
      · rintro (⟨hv, _⟩ | ⟨_, hlast⟩)
        · exact absurd (by decide) hv
        · omega
      · intro hout
        simp at hout
  · refine ⟨_, rfl, ?_, ?_⟩
    · rintro (⟨_, hf⟩ | ⟨hv, _⟩)
      · rcases h6 with rfl | rfl <;> exact absurd (by decide) hf
      · rcases h6 with rfl | rfl <;> exact absurd hv (by decide)
    · intro _
      refine ⟨fun hv => ?_, fun _ => rfl⟩
      rcases h6 with rfl | rfl <;> exact absurd hv (by decide)
  · obtain ⟨harg7, hlt⟩ := h7
    refine ⟨_, rfl, ?_, ?_⟩
    · rintro (⟨hv, _⟩ | ⟨_, hlast⟩)
      · rcases harg7 with rfl | rfl <;> exact absurd (by decide) hv
      · omega
    · intro _
      refine ⟨fun _ => tryStol_i _ _ _ _ _, fun hf => ?_⟩
      rcases harg7 with rfl | rfl <;> exact absurd hf (by decide)
  · refine ⟨_, rfl, fun _ => rfl, ?_⟩
    intro hout
    simp at hout

/-- Witness of C9: "-t" in the last position is refused and nothing changes. -/
theorem interpretOption_frame_witness :
    0 < ["-t"].length
    ∧ interpretOption (ctor OperationMode.None) 0 ["-t"]
        = some { outcome := Outcome.returned false, i := 0, cli := ctor OperationMode.None,
                 cerr := "" } := by
  refine ⟨by decide, ?_⟩
  obtain ⟨r, hr, hfalse, _⟩ := interpretOption_frame (ctor OperationMode.None) 0 ["-t"] (by decide)
  rw [hr, hfalse (Or.inr ⟨by decide, rfl⟩)]

/-- The four options whose `stol` call is inside `try`: a value `stol` rejects ends the call
with `BadArgument`, after `i` has advanced and the message has been written to `cerr`. -/
theorem interpretOption_bad_value (cli : MinerCLI) (i : Nat) (argv : List String)
    (arg : String) (e : Exception) (harg : argv[i]? = some arg)
    (hopt : arg ∈ ["--benchmark-warmup", "--benchmark-trial", "--benchmark-trials", "-t",
      "--mining-threads"])
    (hnext : i + 1 < argv.length)
    (hbad : stol (argv.getD (i + 1) "") = Except.error e) :
    interpretOption cli i argv
      = some { outcome := Outcome.threw Exception.BadArgument, i := i + 1, cli := cli,
               cerr := "Bad " ++ arg ++ " option: " ++ argv.getD (i + 1) "" ++ "\n" } := by
  unfold interpretOption
  simp only [harg]
  simp only [List.mem_cons, List.mem_singleton, List.mem_nil_iff, or_false] at hopt
  simp only [tryStol, hbad]
  rcases hopt with rfl | rfl | rfl | rfl | rfl <;> simp [hnext]

/-- The option "--current-block", whose `stol` call is not inside `try`: a value `stol`
rejects ends the call with the exception of `stol`, which is never `BadArgument`. -/
theorem interpretOption_currentBlock_bad_value (cli : MinerCLI) (i : Nat)
    (argv : List String) (e : Exception) (harg : argv[i]? = some "--current-block")
    (hnext : i + 1 < argv.length)
    (hbad : stol (argv.getD (i + 1) "") = Except.error e) :
    interpretOption cli i argv
      = some { outcome := Outcome.threw e, i := i + 1, cli := cli, cerr := "" }
    ∧ e ≠ Exception.BadArgument := by
  constructor
  · unfold interpretOption
    simp only [harg, hbad]
    simp [hnext]
  · intro he
    subst he
    unfold stol at hbad
    simp only at hbad
    split_ifs at hbad <;> simp at hbad

end MinerCLI

/-! ## Instances of the equality theorems -/

namespace dev
namespace eth
namespace Transaction

/-- Witness of C1: giving the sample message call another value makes it unequal to the
original, in both operand orders. -/
theorem operatorEq_narrow_witness :
    operatorEq sampleMessageCall sampleMessageCall = true
    ∧ (5 : u256) ≠ sampleMessageCall.value
    ∧ operatorEq sampleMessageCall { sampleMessageCall with m_value := 5 } = false
    ∧ operatorEq { sampleMessageCall with m_value := 5 } sampleMessageCall = false :=
  ⟨by decide, by decide,
    (operatorEq_narrow sampleMessageCall sampleMessageCall).2.2.1 5 (by decide) (by decide)⟩

/-- Witness of C10: transitivity on three transactions that differ in nonce and gas only. -/
theorem operatorEq_equivalence_witness :
    operatorEq (ctorMessageCall 1000 1 21000 3735928559 [42]) sampleMessageCall = true
    ∧ operatorEq sampleMessageCall (ctorMessageCall 1000 2 30000 3735928559 [42]) = true
    ∧ operatorEq (ctorMessageCall 1000 1 21000 3735928559 [42])
        (ctorMessageCall 1000 2 30000 3735928559 [42]) = true :=
  ⟨by decide, by decide,
    (operatorEq_equivalence (ctorMessageCall 1000 1 21000 3735928559 [42]) sampleMessageCall
      (ctorMessageCall 1000 2 30000 3735928559 [42])).2.2.1 (by decide) (by decide)⟩

end Transaction
end eth
end dev
